import Mathlib

/-!
Shallow embedding of the nested-key JSON value store of nlib
(src/nlib3/nlib.py): class JsonData (load / save / get / set / increment /
get_keys) together with the helper functions update_nest_dict and can_cast.

Python JSON values are modelled by the inductive type JVal; dictionaries are
association lists with first-match lookup and in-place-replace insertion,
matching CPython dict semantics (insertion order kept, assignment replaces
the existing binding in place).  Numbers are modelled as integers; floating
point is out of scope.  The backing file is modelled by FileState: missing
(open raises FileNotFoundError), malformed (json.load raises
JSONDecodeError), ioError (any other exception while reading), or content v
(the parsed document).  Exceptions that escape a Python function are
modelled with Except.
-/

namespace NLib

/-- JSON value as produced by Python's json.load: null, booleans, numbers
(modelled as integers), strings, arrays and objects. -/
inductive JVal where
  | null
  | bool (b : Bool)
  | int (n : Int)
  | str (s : String)
  | arr (elems : List JVal)
  | obj (entries : List (String × JVal))

/-- The keys argument of JsonData / update_nest_dict: either a bare string
or a list (tuple) of strings, as in the Python annotation str | StrList. -/
inductive KeysArg where
  | str (s : String)
  | list (ks : List String)
deriving DecidableEq

/-- Python normalisation performed by load and update_nest_dict:
if keys is neither a list nor a tuple it becomes the one-element tuple
(keys,). -/
def normKeys : KeysArg → List String
  | .str s => [s]
  | .list ks => ks

/-- Python tuple(keys): a list/tuple is unchanged, while tuple of a bare
string iterates the string, yielding its one-character substrings. -/
def tupleOfKeys : KeysArg → List String
  | .str s => s.toList.map (fun c => String.mk [c])
  | .list ks => ks

/-- Dictionary lookup dict[k]: first binding of k, none when absent
(Python raises KeyError in the latter case). -/
def lookupObj : List (String × JVal) → String → Option JVal
  | [], _ => none
  | (k', v) :: rest, k => if k' = k then some v else lookupObj rest k

/-- Dictionary assignment dict[k] = v: replaces the existing binding in
place, or appends a new binding at the end. -/
def insertObj : List (String × JVal) → String → JVal → List (String × JVal)
  | [], k, v => [(k, v)]
  | (k', v') :: rest, k, v =>
      if k' = k then (k, v) :: rest else (k', v') :: insertObj rest k v

/-- Exception raised while subscripting during the key walk:
KeyError (key absent from a dict) or TypeError (subscripting a
non-dict JSON value with a string key). -/
inductive PathErr where
  | keyError
  | typeError
deriving DecidableEq

/-- The key walk of JsonData.load: for row in keys, json_data =
json_data[row].  A dict is subscripted by lookup (KeyError when absent);
subscripting any non-dict JSON value with a string key raises TypeError. -/
def resolvePath : JVal → List String → Except PathErr JVal
  | v, [] => .ok v
  | .obj m, k :: ks =>
      match lookupObj m k with
      | some v => resolvePath v ks
      | none => .error .keyError
  | _, _ :: _ => .error .typeError

/-- Observer used by the frame theorems: the value reached by a key path,
none when a key is absent or a non-dict is hit. -/
def getPath : JVal → List String → Option JVal
  | v, [] => some v
  | .obj m, k :: ks =>
      match lookupObj m k with
      | some v => getPath v ks
      | none => none
  | _, _ :: _ => none

/-- Whether a JSON value is a dict. -/
def JVal.isObj : JVal → Bool
  | .obj _ => true
  | _ => false

/-- State of the backing file as seen by load_json / save_json. -/
inductive FileState where
  | missing
  | malformed
  | ioError
  | content (v : JVal)

/-- update_nest_dict after key normalisation.  Python mutates the dict in
place; here the updated dict is returned.  Except models the exceptions the
Python code can raise: IndexError on an empty key tuple, TypeError when the
value to update inside is not a dict.  The Bool is the function's own
return value: True only in the non-recursive (single key) case. -/
def updateNestDictKeys : JVal → List String → JVal → Except Unit (JVal × Bool)
  | _, [], _ => .error ()
  | .obj m, [k], v => .ok (.obj (insertObj m k v), true)
  | _, [_], _ => .error ()
  | .obj m, k :: k2 :: ks, v =>
      match lookupObj m k with
      | some child =>
          match updateNestDictKeys child (k2 :: ks) v with
          | .ok (child', _) => .ok (.obj (insertObj m k child'), false)
          | .error e => .error e
      | none =>
          match updateNestDictKeys (.obj []) (k2 :: ks) v with
          | .ok (child', _) => .ok (.obj (insertObj m k child'), false)
          | .error e => .error e
  | _, _ :: _ :: _, _ => .error ()

/-- update_nest_dict(dictionary, keys, value): normalises keys to a tuple
and performs the recursive in-place update. -/
def update_nest_dict (d : JVal) (keys : KeysArg) (v : JVal) :
    Except Unit (JVal × Bool) :=
  updateNestDictKeys d (normKeys keys) v

/-- Exception raised by Python's int(x) conversion. -/
inductive CastErr where
  | valueError
  | typeError
deriving DecidableEq

/-- Value of a non-empty all-digit character list, none otherwise. -/
def digitsVal (cs : List Char) : Option Nat :=
  if cs.isEmpty then none
  else
    cs.foldl
      (fun acc c => acc.bind (fun a =>
        if c.isDigit then some (a * 10 + (c.toNat - 48)) else none))
      (some 0)

/-- Leading whitespace characters removed from a character list. -/
def stripLeadingWS : List Char → List Char
  | [] => []
  | c :: cs => if c.isWhitespace then stripLeadingWS cs else c :: cs

/-- Surrounding whitespace removed from a character list. -/
def stripWS (cs : List Char) : List Char :=
  stripLeadingWS ((stripLeadingWS cs.reverse).reverse)

/-- Python int(s) on a string: surrounding whitespace is stripped, an
optional sign is allowed, then a non-empty digit run (digit-group
underscores are not modelled). -/
def parseIntStr (s : String) : Option Int :=
  match stripWS s.toList with
  | '+' :: rest => (digitsVal rest).map (fun n => (n : Int))
  | '-' :: rest => (digitsVal rest).map (fun n => -(n : Int))
  | rest => (digitsVal rest).map (fun n => (n : Int))

/-- Python int(x) on a JSON value: ints are identity, bools map to 0/1,
strings parse or raise ValueError, and null / arrays / dicts raise
TypeError. -/
def pyInt : JVal → Except CastErr Int
  | .int n => .ok n
  | .bool b => .ok (if b then 1 else 0)
  | .str s =>
      match parseIntStr s with
      | some n => .ok n
      | none => .error .valueError
  | .null => .error .typeError
  | .arr _ => .error .typeError
  | .obj _ => .error .typeError

/-- can_cast(x, int): try int(x) catching only ValueError; a TypeError
escapes (modelled as Except.error). -/
def can_cast_int (v : JVal) : Except Unit Bool :=
  match pyInt v with
  | .ok _ => .ok true
  | .error .valueError => .ok false
  | .error .typeError => .error ()

/-- In-memory state of a JsonData instance: the keys argument (normalised
only when a load got past load_json), the default, the cached value and the
load-failure flag. -/
structure JsonData where
  keys : KeysArg
  default : JVal
  data : JVal
  load_error_flag : Bool

/-- JsonData.load over a file state.  Returns the new store and the Bool
result.  Key normalisation happens only after load_json succeeded; only
KeyError is caught by the inner handler, so a TypeError from subscripting a
non-dict sets the load-failure flag; the flag is never reset. -/
def JsonData.load (s : JsonData) (f : FileState) : JsonData × Bool :=
  match f with
  | .content d =>
      let ks := normKeys s.keys
      let s1 : JsonData := { s with keys := .list ks }
      match resolvePath d ks with
      | .ok v => ({ s1 with data := v }, true)
      | .error .keyError => ({ s1 with data := s1.default }, true)
      | .error .typeError =>
          ({ s1 with data := s1.default, load_error_flag := true }, false)
  | .missing => ({ s with data := s.default }, true)
  | .malformed =>
      ({ s with data := s.default, load_error_flag := true }, false)
  | .ioError =>
      ({ s with data := s.default, load_error_flag := true }, false)

/-- Document that JsonData.save starts from: a fresh read of the file, with
FileNotFoundError and JSONDecodeError both mapped to an empty dict and any
other read error aborting the save (none). -/
def saveBase : FileState → Option JVal
  | .missing => some (.obj [])
  | .malformed => some (.obj [])
  | .ioError => none
  | .content d => some d

/-- JsonData.save: refused when the load-failure flag is set; otherwise
re-reads the document, merges the cached value in with update_nest_dict and
writes the result back.  Returns (store, file state after, result). -/
def JsonData.save (s : JsonData) (f : FileState) :
    JsonData × FileState × Bool :=
  if s.load_error_flag then (s, f, false)
  else
    match saveBase f with
    | none => (s, f, false)
    | some base =>
        match update_nest_dict base s.keys s.data with
        | .ok (d', _) => (s, .content d', true)
        | .error _ => (s, f, false)

/-- JsonData.get: the cached value, no I/O. -/
def JsonData.get (s : JsonData) : JVal := s.data

/-- JsonData.set: replaces the cached value, then saves when save_flag is
set, otherwise returns False without touching the file. -/
def JsonData.set (s : JsonData) (v : JVal) (save_flag : Bool)
    (f : FileState) : JsonData × FileState × Bool :=
  let s1 : JsonData := { s with data := v }
  if save_flag then s1.save f else (s1, f, false)

/-- JsonData.increment: when can_cast(get(), int) is false the value is
reset to 0 first; then set(int(get()) + num, save_flag).  A TypeError from
int() (null, array or dict value) escapes uncaught. -/
def JsonData.increment (s : JsonData) (f : FileState) (save_flag : Bool)
    (num : Int) : Except Unit (JsonData × FileState × Bool) :=
  match can_cast_int s.get with
  | .error _ => .error ()
  | .ok true =>
      match pyInt s.get with
      | .ok n => .ok (s.set (.int (n + num)) save_flag f)
      | .error _ => .error ()
  | .ok false =>
      let s1 := (s.set (.int 0) false f).1
      match pyInt s1.get with
      | .ok n => .ok (s1.set (.int (n + num)) save_flag f)
      | .error _ => .error ()

/-- JsonData.get_keys: tuple(self.keys). -/
def JsonData.get_keys (s : JsonData) : List String := tupleOfKeys s.keys

/-- JsonData.get_default. -/
def JsonData.get_default (s : JsonData) : JVal := s.default

/-- JsonData.__init__(keys, default, path): stores the arguments, sets the
load-failure flag to false and immediately loads. -/
def JsonData.init (keys : KeysArg) (default : JVal) (f : FileState) :
    JsonData × Bool :=
  JsonData.load
    { keys := keys, default := default, data := .null,
      load_error_flag := false } f

/-- Two key paths diverge when they disagree at some common index, i.e.
neither is a prefix of the other; such a path lies outside the updated key
path and addresses a sibling at some level. -/
def divergesB : List String → List String → Bool
  | [], _ => false
  | _, [] => false
  | a :: p, b :: q => if a = b then divergesB p q else true

theorem divergesB_ne_nil {p q : List String} (h : divergesB p q = true) :
    p ≠ [] := by
  cases p with
  | nil => simp [divergesB] at h
  | cons a p' => exact fun hc => List.noConfusion hc

theorem divergesB_nil_right (p : List String) : divergesB p [] = false := by
  cases p <;> simp [divergesB]

theorem lookupObj_insertObj (m : List (String × JVal)) (k : String)
    (v : JVal) (q : String) :
    lookupObj (insertObj m k v) q =
      if k = q then some v else lookupObj m q := by
  induction m with
  | nil => simp [insertObj, lookupObj]
  | cons hd rest ih =>
    obtain ⟨k', v'⟩ := hd
    by_cases hk : k' = k
    · subst hk
      simp only [insertObj, if_pos rfl, lookupObj]
      by_cases hq : k' = q <;> simp [hq]
    · simp only [insertObj, if_neg hk, lookupObj]
      by_cases hq : k' = q
      · subst hq
        have hkq : ¬ k' = k := hk
        have : ¬ k = k' := fun h => hkq h.symm
        simp [this]
      · simp [hq, ih]

theorem updateNest_nonObj (ks : List String) (d v : JVal)
    (h : d.isObj = false) : updateNestDictKeys d ks v = .error () := by
  cases ks with
  | nil => simp [updateNestDictKeys]
  | cons k tail =>
    cases tail <;> cases d <;> simp_all [updateNestDictKeys, JVal.isObj]

theorem updateNest_diverge :
    ∀ (ks : List String) (d v d' : JVal) (b : Bool),
      updateNestDictKeys d ks v = .ok (d', b) →
      ∀ p, divergesB p ks = true → getPath d' p = getPath d p := by
  intro ks
  induction ks with
  | nil => intro d v d' b h p hp; simp [updateNestDictKeys] at h
  | cons k tail ih =>
    intro d v d' b h p hp
    have hobj : ∃ m, d = .obj m := by
      cases tail <;> cases d <;>
        first
        | exact ⟨_, rfl⟩
        | simp [updateNestDictKeys] at h
    obtain ⟨m, rfl⟩ := hobj
    cases tail with
    | nil =>
      simp only [updateNestDictKeys, Except.ok.injEq, Prod.mk.injEq] at h
      obtain ⟨hd', hb⟩ := h
      subst hd'
      cases p with
      | nil => simp [divergesB] at hp
      | cons q p' =>
        by_cases hq : q = k
        · subst hq; simp [divergesB, divergesB_nil_right] at hp
        · have hq' : ¬ k = q := fun hh => hq hh.symm
          simp [getPath, lookupObj_insertObj, hq']
    | cons k2 rest =>
      cases hlk : lookupObj m k with
      | some child =>
        simp only [updateNestDictKeys, hlk] at h
        cases hrec : updateNestDictKeys child (k2 :: rest) v with
        | error e => rw [hrec] at h; simp at h
        | ok pr =>
          obtain ⟨child', b'⟩ := pr
          rw [hrec] at h
          simp only [Except.ok.injEq, Prod.mk.injEq] at h
          obtain ⟨hd', hb⟩ := h
          subst hd'
          cases p with
          | nil => simp [divergesB] at hp
          | cons q p' =>
            by_cases hq : q = k
            · subst hq
              simp only [divergesB, if_pos rfl] at hp
              simp only [getPath, lookupObj_insertObj, if_pos rfl, hlk]
              exact ih child v child' b' hrec p' hp
            · have hq' : ¬ k = q := fun hh => hq hh.symm
              simp [getPath, lookupObj_insertObj, hq']
      | none =>
        simp only [updateNestDictKeys, hlk] at h
        cases hrec : updateNestDictKeys (.obj []) (k2 :: rest) v with
        | error e => rw [hrec] at h; simp at h
        | ok pr =>
          obtain ⟨child', b'⟩ := pr
          rw [hrec] at h
          simp only [Except.ok.injEq, Prod.mk.injEq] at h
          obtain ⟨hd', hb⟩ := h
          subst hd'
          cases p with
          | nil => simp [divergesB] at hp
          | cons q p' =>
            by_cases hq : q = k
            · subst hq
              simp only [divergesB, if_pos rfl] at hp
              simp only [getPath, lookupObj_insertObj, if_pos rfl, hlk]
              have hemp := ih (.obj []) v child' b' hrec p' hp
              cases p' with
              | nil => simp [divergesB] at hp
              | cons x p'' => simpa [getPath, lookupObj] using hemp
            · have hq' : ¬ k = q := fun hh => hq hh.symm
              simp [getPath, lookupObj_insertObj, hq']

theorem updateNest_resolve :
    ∀ (ks : List String) (d v d' : JVal) (b : Bool),
      updateNestDictKeys d ks v = .ok (d', b) →
      resolvePath d' ks = .ok v := by
  intro ks
  induction ks with
  | nil => intro d v d' b h; simp [updateNestDictKeys] at h
  | cons k tail ih =>
    intro d v d' b h
    have hobj : ∃ m, d = .obj m := by
      cases tail <;> cases d <;>
        first
        | exact ⟨_, rfl⟩
        | simp [updateNestDictKeys] at h
    obtain ⟨m, rfl⟩ := hobj
    cases tail with
    | nil =>
      simp only [updateNestDictKeys, Except.ok.injEq, Prod.mk.injEq] at h
      obtain ⟨hd', hb⟩ := h
      subst hd'
      simp [resolvePath, lookupObj_insertObj]
    | cons k2 rest =>
      cases hlk : lookupObj m k with
      | some child =>
        simp only [updateNestDictKeys, hlk] at h
        cases hrec : updateNestDictKeys child (k2 :: rest) v with
        | error e => rw [hrec] at h; simp at h
        | ok pr =>
          obtain ⟨child', b'⟩ := pr
          rw [hrec] at h
          simp only [Except.ok.injEq, Prod.mk.injEq] at h
          obtain ⟨hd', hb⟩ := h
          subst hd'
          simp only [resolvePath, lookupObj_insertObj, if_pos rfl]
          exact ih child v child' b' hrec
      | none =>
        simp only [updateNestDictKeys, hlk] at h
        cases hrec : updateNestDictKeys (.obj []) (k2 :: rest) v with
        | error e => rw [hrec] at h; simp at h
        | ok pr =>
          obtain ⟨child', b'⟩ := pr
          rw [hrec] at h
          simp only [Except.ok.injEq, Prod.mk.injEq] at h
          obtain ⟨hd', hb⟩ := h
          subst hd'
          simp only [resolvePath, lookupObj_insertObj, if_pos rfl]
          exact ih (.obj []) v child' b' hrec

theorem updateNest_conflict :
    ∀ (ks : List String) (d : JVal) (i : Nat) (w v : JVal),
      0 < i → i < ks.length →
      getPath d (ks.take i) = some w → w.isObj = false →
      updateNestDictKeys d ks v = .error () := by
  intro ks
  induction ks with
  | nil => intro d i w v h1 h2 h3 h4; simp at h2
  | cons k tail ih =>
    intro d i w v h1 h2 h3 h4
    obtain ⟨j, rfl⟩ : ∃ j, i = j + 1 := ⟨i - 1, by omega⟩
    rw [List.take_succ_cons] at h3
    cases d with
    | obj m =>
      simp only [getPath] at h3
      cases hlk : lookupObj m k with
      | none => rw [hlk] at h3; simp at h3
      | some u =>
        rw [hlk] at h3
        have htail : tail ≠ [] := by
          have : j < tail.length := by simpa using h2
          intro hc; rw [hc] at this; simp at this
        obtain ⟨t1, trest, rfl⟩ : ∃ t1 trest, tail = t1 :: trest := by
          cases tail with
          | nil => exact absurd rfl htail
          | cons a b => exact ⟨a, b, rfl⟩
        have herr : updateNestDictKeys u (t1 :: trest) v = .error () := by
          cases j with
          | zero =>
            simp only [List.take_zero, getPath, Option.some.injEq] at h3
            subst h3
            exact updateNest_nonObj _ _ _ h4
          | succ j' =>
            exact ih u (j' + 1) w v (by omega) (by simpa using h2) h3 h4
        simp [updateNestDictKeys, hlk, herr]
    | null => simp [getPath] at h3
    | bool x => simp [getPath] at h3
    | int x => simp [getPath] at h3
    | str x => simp [getPath] at h3
    | arr x => simp [getPath] at h3

theorem save_store_eq (s : JsonData) (f : FileState) : (s.save f).1 = s := by
  unfold JsonData.save
  split
  · rfl
  · cases hb : saveBase f with
    | none => simp
    | some base =>
      cases h : update_nest_dict base s.keys s.data with
      | ok pr => obtain ⟨d', b⟩ := pr; simp [h]
      | error e => simp [h]

theorem save_flag_refuse (s : JsonData) (f : FileState)
    (h : s.load_error_flag = true) : s.save f = (s, f, false) := by
  unfold JsonData.save
  rw [h]
  simp

theorem save_ok_inv (s : JsonData) (f : FileState) (r : JsonData)
    (f' : FileState) (h : s.save f = (r, f', true)) :
    r = s ∧ ∃ base d' b, saveBase f = some base ∧
      update_nest_dict base s.keys s.data = .ok (d', b) ∧
      f' = .content d' := by
  unfold JsonData.save at h
  split at h
  · simp at h
  · split at h
    · simp at h
    · rename_i base hbase
      split at h
      · rename_i d' b hupd
        injection h with h1 h2
        injection h2 with h2 h3
        exact ⟨h1.symm, base, d', b, hbase, hupd, h2.symm⟩
      · simp at h

theorem set_fst (t : JsonData) (v : JVal) (b : Bool) (f : FileState) :
    (t.set v b f).1 = { t with data := v } := by
  unfold JsonData.set
  cases b with
  | false => rfl
  | true => simp [save_store_eq]

example :
    resolvePath (.obj [("a", .obj [("b", .int 3)])]) ["a", "b"] =
      .ok (.int 3) := rfl

example :
    (JsonData.init (.str "ab") (.int 0) .missing).1.get_keys =
      ["a", "b"] := rfl

example :
    updateNestDictKeys (.obj [("a", .obj [("b", .int 1), ("c", .int 2)])])
      ["a", "b"] (.int 99) =
      .ok (.obj [("a", .obj [("b", .int 99), ("c", .int 2)])], false) := rfl

example : pyInt (.str "abc") = .error .valueError := rfl

example : pyInt (.str " -42 ") = .ok (-42) := rfl

/-- Store addressing ["a", "b"] with default 0, as freshly constructed. -/
def storeAB : JsonData :=
  { keys := .list ["a", "b"], default := .int 0, data := .null,
    load_error_flag := false }

/-- Document in which the path ["a", "b"] fully resolves. -/
def docResolves : JVal := .obj [("a", .obj [("b", .int 3)])]

/-- Document in which the intermediate key "a" holds a scalar. -/
def docConflict : JVal := .obj [("a", .int 5)]

/-- C1: for a backing document that exists and parses as JSON, when the
full key path resolves, load() returns true and a subsequent get() returns
exactly the value reached by walking the key path; when the key path or
the file is absent, get() after load() returns the configured default. -/
theorem load_resolved_get_exact (s : JsonData) (d : JVal) :
    (∀ v, resolvePath d (normKeys s.keys) = .ok v →
      (s.load (.content d)).2 = true ∧ (s.load (.content d)).1.get = v)
    ∧ (resolvePath d (normKeys s.keys) = .error .keyError →
      (s.load (.content d)).2 = true ∧
        (s.load (.content d)).1.get = s.default)
    ∧ ((s.load .missing).2 = true ∧
        (s.load .missing).1.get = s.default) := by
  refine ⟨?_, ?_, ?_⟩
  · intro v hv
    simp [JsonData.load, JsonData.get, hv]
  · intro hv
    simp [JsonData.load, JsonData.get, hv]
  · simp [JsonData.load, JsonData.get]

/-- Witness for C1: the store at ["a", "b"] over a document where the path
resolves to 3 loads successfully and gets exactly 3. -/
theorem load_resolved_get_exact_witness :
    (storeAB.load (.content docResolves)).2 = true ∧
      (storeAB.load (.content docResolves)).1.get = .int 3 :=
  (load_resolved_get_exact storeAB docResolves).1 (.int 3) rfl

/-- C2: a malformed backing file makes load() return false, set the stored
value to the default and raise the load-failure flag; every save() on a
store whose flag is set returns false and leaves the file untouched, and
neither set nor a completed increment ever clears the flag, so every
subsequent save without an intervening successful load is refused. -/
theorem malformed_load_blocks_save (s : JsonData) :
    ((s.load .malformed).2 = false ∧
      (s.load .malformed).1.data = s.default ∧
      (s.load .malformed).1.load_error_flag = true)
    ∧ (∀ (t : JsonData) (f : FileState), t.load_error_flag = true →
        t.save f = (t, f, false))
    ∧ (∀ (t : JsonData) (v : JVal) (b : Bool) (f : FileState),
        ((t.set v b f).1).load_error_flag = t.load_error_flag)
    ∧ (∀ (t t' : JsonData) (f f' : FileState) (sf b : Bool) (n : Int),
        t.increment f sf n = .ok (t', f', b) →
        t'.load_error_flag = t.load_error_flag) := by
  refine ⟨by simp [JsonData.load], ?_, ?_, ?_⟩
  · intro t f ht
    exact save_flag_refuse t f ht
  · intro t v b f
    rw [set_fst]
  · intro t t' f f' sf b n h
    unfold JsonData.increment at h
    split at h
    · simp at h
    · split at h
      · rename_i m hp
        simp only [Except.ok.injEq] at h
        have ht' : t' = (t.set (.int (m + n)) sf f).1 := by rw [h]
        rw [ht', set_fst]
      · simp at h
    · simp only [] at h
      split at h
      · rename_i m hp
        simp only [Except.ok.injEq] at h
        have ht' :
            t' = (((t.set (.int 0) false f).1).set (.int (m + n)) sf f).1 := by
          rw [h]
        rw [ht', set_fst, set_fst]
      · simp at h

/-- Witness for C2 at a concrete store: after loading a malformed file the
flag is set and a save over the (unchanged) malformed file is refused. -/
theorem malformed_load_blocks_save_witness :
    ((storeAB.load .malformed).2 = false ∧
      (storeAB.load .malformed).1.data = storeAB.default ∧
      (storeAB.load .malformed).1.load_error_flag = true)
    ∧ ((storeAB.load .malformed).1.save .malformed =
        ((storeAB.load .malformed).1, .malformed, false)) :=
  ⟨(malformed_load_blocks_save storeAB).1,
    (malformed_load_blocks_save storeAB).2.1 (storeAB.load .malformed).1
      .malformed rfl⟩

/-- Store addressing ["a", "b"] holding 99, about to save. -/
def storeMerge : JsonData :=
  { keys := .list ["a", "b"], default := .int 0, data := .int 99,
    load_error_flag := false }

/-- The merge-preserves-siblings example document. -/
def docSiblings : JVal := .obj [("a", .obj [("b", .int 1), ("c", .int 2)])]

/-- The example document after saving 99 at ["a", "b"]. -/
def docSiblingsSaved : JVal :=
  .obj [("a", .obj [("b", .int 99), ("c", .int 2)])]

/-- C3: the nested merge performed by save() never deletes or mutates any
entry of the document outside the exact key path: whenever save succeeds
over a parsed document, every path that diverges from the key path reads
the same value in the written document as in the original one, so every
sibling key at every level survives the save unchanged. -/
theorem save_preserves_divergent_paths (s : JsonData) (d d' : JVal)
    (r : JsonData) (h : s.save (.content d) = (r, .content d', true)) :
    ∀ p, divergesB p (normKeys s.keys) = true →
      getPath d' p = getPath d p := by
  intro p hp
  obtain ⟨-, base, dW, b, hbase, hupd, hf⟩ := save_ok_inv _ _ _ _ h
  simp only [saveBase, Option.some.injEq] at hbase
  injection hf with hf'
  rw [← hbase] at hupd
  rw [hf']
  exact updateNest_diverge (normKeys s.keys) d s.data dW b hupd p hp

/-- Witness for C3: saving 99 at ["a", "b"] into a document holding
{"a": {"b": 1, "c": 2}} leaves the sibling path ["a", "c"] unchanged. -/
theorem save_preserves_divergent_paths_witness :
    getPath docSiblingsSaved ["a", "c"] = getPath docSiblings ["a", "c"] :=
  save_preserves_divergent_paths storeMerge docSiblings docSiblingsSaved
    storeMerge rfl ["a", "c"] rfl

/-- C4 counterexample: a store whose flag was set by a malformed load then
loads a now-missing file; load() returns true but the load-failure flag
stays true and save() is still refused, contradicting the claim that every
true-returning load leaves the flag false. -/
theorem load_true_flag_stays_cex :
    ((storeAB.load .malformed).1.load .missing).2 = true ∧
      (((storeAB.load .malformed).1.load .missing).1).load_error_flag =
        true ∧
      ((storeAB.load .malformed).1.load .missing).1.save .missing =
        ((((storeAB.load .malformed).1.load .missing).1), .missing,
          false) :=
  ⟨rfl, rfl, rfl⟩

/-- C4 amended: a load() that returns true leaves the load-failure flag
exactly as it was before the call: load never clears the flag, so a
failed-then-successful load still refuses save; only construction resets
the flag. -/
theorem load_true_flag_unchanged (s : JsonData) (f : FileState)
    (h : (s.load f).2 = true) :
    ((s.load f).1).load_error_flag = s.load_error_flag := by
  cases f with
  | missing => rfl
  | malformed => simp [JsonData.load] at h
  | ioError => simp [JsonData.load] at h
  | content d =>
    cases hr : resolvePath d (normKeys s.keys) with
    | ok v => simp [JsonData.load, hr]
    | error e =>
      cases e with
      | keyError => simp [JsonData.load, hr]
      | typeError => simp [JsonData.load, hr] at h

/-- Witness for the C4 amended theorem at a concrete input. -/
theorem load_true_flag_unchanged_witness :
    ((storeAB.load .missing).1).load_error_flag =
      storeAB.load_error_flag :=
  load_true_flag_unchanged storeAB .missing rfl

/-- C5 counterexample: with document {"a": 5} and key path ["a", "b"] the
walk hits a non-mapping value mid-path; load() returns false and sets the
load-failure flag, not true with a clean flag as the claim states (the
stored value is still the default). -/
theorem load_nonmapping_midpath_cex :
    (storeAB.load (.content docConflict)).2 = false ∧
      ((storeAB.load (.content docConflict)).1).load_error_flag = true ∧
      (storeAB.load (.content docConflict)).1.data = storeAB.default :=
  ⟨rfl, rfl, rfl⟩

/-- C5 amended: a missing key at any depth yields the default with load()
returning true and the flag untouched, but a non-mapping value encountered
mid-path raises TypeError, which only the generic handler catches: the
default is stored, the flag is set and load() returns false. -/
theorem load_keyabsent_vs_nonmapping (s : JsonData) (d : JVal) :
    (resolvePath d (normKeys s.keys) = .error .keyError →
      s.load (.content d) =
        ({ s with keys := .list (normKeys s.keys), data := s.default },
          true))
    ∧ (resolvePath d (normKeys s.keys) = .error .typeError →
      s.load (.content d) =
        ({ s with
             keys := .list (normKeys s.keys), data := s.default,
             load_error_flag := true }, false)) := by
  constructor <;> intro hv <;> simp [JsonData.load, hv]

/-- Witness for the C5 amended theorem: over the empty document the path
["a", "b"] is absent, so load succeeds with the default. -/
theorem load_keyabsent_vs_nonmapping_witness :
    storeAB.load (.content (.obj [])) =
      ({ storeAB with keys := .list ["a", "b"], data := .int 0 }, true) :=
  (load_keyabsent_vs_nonmapping storeAB (.obj [])).1 rfl

/-- The set(7, persist=true) step of the round-trip counterexample: the
store was constructed over {"a": 5} with key path ["a", "b"], which set
the load-failure flag, so the save inside set is refused. -/
def roundTripStep : JsonData × FileState × Bool :=
  ((JsonData.init (.list ["a", "b"]) (.int 0)
      (.content docConflict)).1).set (.int 7) true (.content docConflict)

/-- C6 counterexample: over the document {"a": 5} a store addressing
["a", "b"] has its flag set at construction (TypeError mid-path), so
set(7, persist=true) returns false and writes nothing; the fresh
load()/get() over the same document yields the default 0, not 7. -/
theorem set_persist_roundtrip_cex :
    roundTripStep.2.2 = false ∧
      (JsonData.init (.list ["a", "b"]) (.int 0)
          roundTripStep.2.1).1.get = .int 0 ∧
      JVal.int 0 ≠ JVal.int 7 :=
  ⟨rfl, rfl, by intro h; injection h with h1; exact absurd h1 (by decide)⟩

/-- C6 amended: the round-trip holds whenever set(V, persist=true)
actually reports success: if the save returned true, a fresh store
constructed with the same keys over the written document loads
successfully and gets exactly V. -/
theorem set_persist_roundtrip (s : JsonData) (V : JVal) (f : FileState)
    (d0 : JVal) (h : (s.set V true f).2.2 = true) :
    (JsonData.init s.keys d0 (s.set V true f).2.1).1.get = V ∧
      (JsonData.init s.keys d0 (s.set V true f).2.1).2 = true := by
  have hset : s.set V true f = ({ s with data := V }).save f := by
    unfold JsonData.set
    simp
  rw [hset] at h ⊢
  have hsv : ({ s with data := V }).save f =
      ((({ s with data := V }).save f).1,
        (({ s with data := V }).save f).2.1, true) := by
    rw [← h]
  obtain ⟨-, base, dW, b, hbase, hupd, hf⟩ := save_ok_inv _ _ _ _ hsv
  rw [hf]
  have hres : resolvePath dW (normKeys s.keys) = .ok V :=
    updateNest_resolve (normKeys s.keys) base V dW b hupd
  unfold JsonData.init JsonData.load JsonData.get
  simp [hres]

/-- Witness for the C6 amended theorem: saving 7 at ["a", "b"] into the
empty document succeeds and a fresh load/get returns 7. -/
theorem set_persist_roundtrip_witness :
    (storeMerge.set (.int 7) true (.content (.obj []))).2.2 = true ∧
      (JsonData.init storeMerge.keys (.int 0)
          (storeMerge.set (.int 7) true (.content (.obj []))).2.1).1.get =
        .int 7 :=
  ⟨rfl, (set_persist_roundtrip storeMerge (.int 7) (.content (.obj []))
    (.int 0) rfl).1⟩

/-- C7: when some intermediate key of the key path resolves to a
non-mapping value in the parsed document, save() returns false and leaves
the backing file unchanged: the merge raises before anything is written,
so no partial write occurs and the rest of the document is untouched. -/
theorem save_conflict_no_write (s : JsonData) (d : JVal) (i : Nat)
    (w : JVal) (h1 : 0 < i) (h2 : i < (normKeys s.keys).length)
    (h3 : getPath d ((normKeys s.keys).take i) = some w)
    (h4 : w.isObj = false) :
    s.save (.content d) = (s, .content d, false) := by
  unfold JsonData.save
  split
  · rfl
  · have herr : updateNestDictKeys d (normKeys s.keys) s.data = .error () :=
      updateNest_conflict (normKeys s.keys) d i w s.data h1 h2 h3 h4
    simp [saveBase, update_nest_dict, herr]

/-- Witness for C7: over {"a": 5} with key path ["a", "b"], depth 1 holds
the scalar 5, and save is refused with the file unchanged. -/
theorem save_conflict_no_write_witness :
    storeAB.save (.content docConflict) =
      (storeAB, .content docConflict, false) :=
  save_conflict_no_write storeAB docConflict 1 (.int 5) (by decide)
    (by decide) rfl rfl

/-- Store whose cached value is null (Python None). -/
def storeNullVal : JsonData :=
  { keys := .list ["k"], default := .int 0, data := .null,
    load_error_flag := false }

/-- Store whose cached value is the string "abc". -/
def storeStrVal : JsonData :=
  { keys := .list ["k"], default := .int 0, data := .str "abc",
    load_error_flag := false }

/-- C8 counterexample: with stored value null, int(None) inside can_cast
raises TypeError, which can_cast does not catch, so increment propagates
an uncaught exception instead of resetting the value to 0 and adding
delta as the claim states for every non-integer-interpretable value. -/
theorem increment_null_raises_cex :
    storeNullVal.increment .missing false 5 = .error () := rfl

/-- C8 amended: when int() on the stored value raises ValueError (the only
exception can_cast catches, e.g. a non-numeric string), increment resets
the value to 0 and then adds delta, so get() returns delta; stored values
on which int() raises TypeError (null, arrays, objects) make increment
propagate the exception instead. -/
theorem increment_valueerror_resets (s : JsonData) (f : FileState)
    (n : Int) (h : pyInt s.data = .error .valueError) :
    s.increment f false n = .ok ({ s with data := .int n }, f, false) := by
  unfold JsonData.increment
  have hc : can_cast_int s.get = .ok false := by
    unfold can_cast_int JsonData.get
    rw [h]
  rw [hc]
  simp [JsonData.set, JsonData.get, pyInt]

/-- Witness for the C8 amended theorem: stored value "abc", delta 5, no
persistence: the value becomes exactly 5. -/
theorem increment_valueerror_resets_witness :
    pyInt storeStrVal.data = .error .valueError ∧
      storeStrVal.increment .missing false 5 =
        .ok ({ storeStrVal with data := .int 5 }, .missing, false) :=
  ⟨rfl, increment_valueerror_resets storeStrVal .missing 5 rfl⟩

/-- C9 counterexample: a store constructed with the bare string keys "ab"
over a missing file never reaches the key normalisation (load_json raised
first), so get_keys() returns the tuple of the string's characters
("a", "b"), not a one-element tuple holding "ab". -/
theorem bare_string_keys_cex :
    (JsonData.init (.str "ab") (.int 0) .missing).1.get_keys =
        ["a", "b"] ∧
      (["a", "b"] : List String) ≠ ["ab"] :=
  ⟨rfl, by decide⟩

/-- C9 amended: only when the backing file exists and parses does load()
normalise bare string keys into the one-element tuple, making get_keys()
return it; when load_json raises (missing or malformed file) the keys stay
the bare string and get_keys() returns the tuple of its characters.  The
merge used by save() normalises bare strings locally, so saving always
addresses the one-element path. -/
theorem bare_string_keys_behavior (str_key : String) (d0 d v : JVal) :
    ((JsonData.init (.str str_key) d0 (.content d)).1.get_keys =
        [str_key])
    ∧ ((JsonData.init (.str str_key) d0 .missing).1.get_keys =
        str_key.toList.map (fun c => String.mk [c]))
    ∧ (update_nest_dict d (.str str_key) v =
        updateNestDictKeys d [str_key] v) := by
  refine ⟨?_, rfl, rfl⟩
  unfold JsonData.init JsonData.load
  cases hr : resolvePath d [str_key] with
  | ok w => simp [normKeys, hr, JsonData.get_keys, tupleOfKeys]
  | error e =>
    cases e <;> simp [normKeys, hr, JsonData.get_keys, tupleOfKeys]

/-- C10: when update_nest_dict completes without raising, its Bool result
is true exactly when the normalised key sequence has one key; every longer
path returns false regardless of the recursive update, so the Bool does
not indicate merge success. -/
theorem update_nest_dict_true_iff (d : JVal) (keys : KeysArg) (v d' : JVal)
    (b : Bool) (h : update_nest_dict d keys v = .ok (d', b)) :
    b = true ↔ (normKeys keys).length = 1 := by
  unfold update_nest_dict at h
  cases hk : normKeys keys with
  | nil => rw [hk] at h; simp [updateNestDictKeys] at h
  | cons k tail =>
    rw [hk] at h
    cases tail with
    | nil =>
      have hobj : ∃ m, d = .obj m := by
        cases d <;>
          first
          | exact ⟨_, rfl⟩
          | simp [updateNestDictKeys] at h
      obtain ⟨m, rfl⟩ := hobj
      simp only [updateNestDictKeys, Except.ok.injEq, Prod.mk.injEq] at h
      simp [← h.2]
    | cons k2 rest =>
      have hobj : ∃ m, d = .obj m := by
        cases d <;>
          first
          | exact ⟨_, rfl⟩
          | simp [updateNestDictKeys] at h
      obtain ⟨m, rfl⟩ := hobj
      simp only [updateNestDictKeys] at h
      have hb : b = false := by
        split at h
        · split at h
          · injection h with h1
            injection h1 with h1 h2
            exact h2.symm
          · simp at h
        · split at h
          · injection h with h1
            injection h1 with h1 h2
            exact h2.symm
          · simp at h
      subst hb
      constructor
      · intro hc; exact absurd hc (by simp)
      · intro hc; simp [List.length_cons] at hc

/-- Witness for C10: a single-key update on the empty dict returns true,
and the normalised key sequence indeed has length one. -/
theorem update_nest_dict_true_iff_witness :
    true = true ↔ (normKeys (.list ["a"])).length = 1 :=
  update_nest_dict_true_iff (.obj []) (.list ["a"]) (.int 1)
    (.obj [("a", .int 1)]) true rfl

end NLib
